import Mathlib

/-!
Verification development for the picomni-rover-web link core.

The embedding covers:
* the wire codec (`#encodeCommand` in `bluetoothService.ts`, `decodeOdometry`
  in `App.tsx`), modelled over IEEE-754 binary32 *bit patterns* (naturals
  below 2^32) so that byte-level layout is exact;
* the `BluetoothService` command loop and session teardown, modelled as an
  event-step machine (`stepBle`): the async tick body runs synchronously up
  to the `await` of the characteristic write, so one interval firing is the
  `tick` event, and resolution/rejection of the outstanding write promise are
  the `sendOk` / `sendErr` events;
* the `App` component's connect/disconnect orchestration (`stepApp`).  A
  `connect()` is modelled in two phases — device selection (which attaches
  the `gattserverdisconnected` listener and sets `#disconnectHandler`, with
  `#device` still unset) and completion — so the partially opened state is
  representable; `drop` events invoke `handleDisconnected` exactly while
  that listener is attached.

Ghost instrumentation fields (`inFlight`, `fetches`, `encodes`, `sends`,
`reported`, `attempts`, `alerts`, `disconnectNotices`) count observable
effects; they are written only where the corresponding source effect occurs.
-/

/-- A `Command` (`types.ts`) with each field given as the IEEE-754 binary32
bit pattern that `setFloat32` would store for it. -/
structure Command32 where
  vx : Nat
  vy : Nat
  w : Nat
deriving DecidableEq

/-- An `Odometry` (`types.ts`) with each field as its binary32 bit pattern,
exactly as read back by `getFloat32`. -/
structure Odometry32 where
  x : Nat
  y : Nat
  yaw : Nat
deriving DecidableEq

/-- Little-endian byte serialization of a 32-bit word, as
`DataView.setFloat32(offset, v, true)` lays the four bytes out. -/
def toLE4 (bits : Nat) : List Nat :=
  [bits % 256, bits / 256 % 256, bits / 65536 % 256, bits / 16777216 % 256]

/-- `BluetoothService.#encodeCommand`: a fresh 12-byte buffer with vx, vy, w
written as little-endian float32 at offsets 0, 4, 8. -/
def encodeCommand (c : Command32) : List Nat :=
  toLE4 c.vx ++ toLE4 c.vy ++ toLE4 c.w

/-- `DataView.getFloat32(off, true)`: reassemble the 32-bit word stored
little-endian at offset `off`. -/
def getUint32LE (view : List Nat) (off : Nat) : Nat :=
  view.getD off 0 + 256 * view.getD (off + 1) 0 + 65536 * view.getD (off + 2) 0 +
    16777216 * view.getD (off + 3) 0

/-- The too-short error message thrown by `decodeOdometry` in `App.tsx`. -/
def malformedMsg : String := "Notification payload shorter than 12 bytes."

/-- `decodeOdometry` (`App.tsx`): reject buffers shorter than 12 bytes,
otherwise read x, y, yaw as little-endian float32 at offsets 0, 4, 8. -/
def decodeOdometry (view : List Nat) : Except String Odometry32 :=
  if view.length < 12 then Except.error malformedMsg
  else Except.ok { x := getUint32LE view 0, y := getUint32LE view 4, yaw := getUint32LE view 8 }

/-- Whether `decodeOdometry` succeeds on the given buffer. -/
def decodeOk (view : List Nat) : Bool :=
  match decodeOdometry view with
  | Except.ok _ => true
  | Except.error _ => false

/-- `Number.isNaN` on the value denoted by a binary32 bit pattern:
exponent field all ones with a non-zero mantissa. -/
def isNaN32 (bits : Nat) : Bool :=
  bits / 8388608 % 256 == 255 && bits % 8388608 != 0

/-- The bit pattern denotes a finite float32 value (exponent field below 255). -/
def isFinite32 (bits : Nat) : Bool :=
  bits / 8388608 % 256 != 255

/-- The real value denoted by a binary32 bit pattern (`none` for NaN and the
infinities): sign, biased exponent, 23-bit mantissa, per IEEE-754. -/
def f32Value (bits : Nat) : Option Rat :=
  let s := bits / 2147483648 % 2
  let e := bits / 8388608 % 256
  let m := bits % 8388608
  let sign : Rat := if s = 1 then -1 else 1
  if e = 255 then none
  else if e = 0 then some (sign * (m : Rat) / 2 ^ 149)
  else some (sign * ((8388608 + m : Nat) : Rat) * 2 ^ e / 2 ^ 150)

/-- `Object.values(command).some((value) => Number.isNaN(value))`. -/
def hasNaNField (c : Command32) : Bool :=
  isNaN32 c.vx || isNaN32 c.vy || isNaN32 c.w

/-- The validation error message thrown inside the command-loop tick. -/
def invalidCommandMsg : String :=
  "現在のコマンドに不正な数値があります。入力を確認してください。"

/-- The error message thrown by `writeCommand` when `#writeChar` is unset. -/
def noWriteCharMsg : String :=
  "書き込み用キャラクタリスティックが利用できません。"

/-- State of one `BluetoothService` instance.  The first seven fields mirror
the private fields of the class (a `Bool` records whether the field is set,
and `serverConnected` mirrors the live `#server.connected` property);
`writeLoopId` and `writeBusy` are the loop fields.  `inFlight` counts
characteristic writes issued and not yet settled; `fetches`, `encodes`,
`sends` count calls of `getCommand`, `#encodeCommand` and the platform write;
`reported` lists the messages passed to the loop's `onError` in order.
`listenerAttached` is platform state, not a class field: whether the
`gattserverdisconnected` listener registered by `connect` (right after device
selection, before `#device` is assigned) is currently attached to the chosen
device. -/
structure BleState where
  device : Bool
  server : Bool
  serverConnected : Bool
  writeChar : Bool
  notifyChar : Bool
  notifyHandler : Bool
  disconnectHandler : Bool
  listenerAttached : Bool
  writeLoopId : Option Nat
  writeBusy : Bool
  inFlight : Nat
  fetches : Nat
  encodes : Nat
  sends : Nat
  reported : List String
deriving DecidableEq

/-- A freshly constructed `BluetoothService`: every private field unset,
no loop, no pending write. -/
def BleState.init : BleState :=
  { device := false, server := false, serverConnected := false, writeChar := false,
    notifyChar := false, notifyHandler := false, disconnectHandler := false,
    listenerAttached := false,
    writeLoopId := none, writeBusy := false, inFlight := 0,
    fetches := 0, encodes := 0, sends := 0, reported := [] }

/-- `stopCommandLoop`: clear the interval if one is registered, null the id,
reset the busy flag. -/
def stopCommandLoop (s : BleState) : BleState :=
  { s with writeLoopId := none, writeBusy := false }

/-- `disconnect` (run to completion): detach the notification handler, drop
the GATT link if still connected, and null every session field.  The
`gattserverdisconnected` listener is removed only when `#device` and
`#disconnectHandler` are both set — `#device` is assigned only on a fully
successful `connect`, so a partially opened session keeps its listener
attached even though the `#disconnectHandler` field itself is nulled.  The
loop fields are not touched here (`App` stops the loop separately). -/
def bleDisconnect (s : BleState) : BleState :=
  { s with
    device := false, server := false, serverConnected := false,
    writeChar := false, notifyChar := false,
    notifyHandler := false, disconnectHandler := false,
    listenerAttached :=
      if s.device && s.disconnectHandler then false else s.listenerAttached }

/-- Events of one `BluetoothService` execution.  `tick cmd` is one interval
firing whose `getCommand()` would return `cmd`; `sendOk` / `sendErr` settle
the oldest outstanding characteristic write; `connectSelected` is a pending
`connect` resolving its device selection and attaching the
`gattserverdisconnected` listener (setting `#disconnectHandler`, with
`#device` still unset); `connectDone` is the rest of that `connect`
succeeding; `disconnect` is a `disconnect` call run to completion. -/
inductive BleEvent where
  | start (id : Nat)
  | tick (cmd : Command32)
  | sendOk
  | sendErr (msg : String)
  | stop
  | connectSelected
  | connectDone
  | disconnect
deriving DecidableEq

/-- One step of the `BluetoothService` machine, translated clause by clause
from `bluetoothService.ts`.  A `tick` with the interval already cleared
cannot occur (`clearInterval` is synchronous) and is a no-op; a `sendOk` or
`sendErr` with nothing outstanding likewise. -/
def stepBle (s : BleState) : BleEvent → BleState
  | BleEvent.start id =>
      if s.writeLoopId ≠ none then s
      else { s with writeLoopId := some id }
  | BleEvent.tick cmd =>
      if s.writeLoopId = none then s
      else if s.writeBusy then s
      else if hasNaNField cmd then
        stopCommandLoop { s with
          fetches := s.fetches + 1,
          reported := s.reported ++ [invalidCommandMsg] }
      else if ¬s.writeChar then
        stopCommandLoop { s with
          fetches := s.fetches + 1,
          reported := s.reported ++ [noWriteCharMsg] }
      else
        { s with
          writeBusy := true, fetches := s.fetches + 1,
          encodes := s.encodes + 1, sends := s.sends + 1,
          inFlight := s.inFlight + 1 }
  | BleEvent.sendOk =>
      if s.inFlight = 0 then s
      else { s with inFlight := s.inFlight - 1, writeBusy := false }
  | BleEvent.sendErr msg =>
      if s.inFlight = 0 then s
      else stopCommandLoop { s with
        inFlight := s.inFlight - 1,
        reported := s.reported ++ [msg] }
  | BleEvent.stop => stopCommandLoop s
  | BleEvent.connectSelected =>
      { s with disconnectHandler := true, listenerAttached := true }
  | BleEvent.connectDone =>
      { s with
        device := true, server := true, serverConnected := true,
        writeChar := true, notifyChar := true,
        notifyHandler := true, disconnectHandler := true,
        listenerAttached := true }
  | BleEvent.disconnect => bleDisconnect s

/-- Run a list of events from a state. -/
def runBle (s : BleState) (l : List BleEvent) : BleState :=
  l.foldl stepBle s

/-- Events belonging to one execution of the command loop: everything except
`startCommandLoop` and `stopCommandLoop`. -/
def loopLocal : BleEvent → Bool
  | BleEvent.start _ => false
  | BleEvent.stop => false
  | _ => true

/-- Events other than `startCommandLoop`. -/
def noStart : BleEvent → Bool
  | BleEvent.start _ => false
  | _ => true

/-- Single-flight invariant: at most one write outstanding, and an idle busy
flag means nothing is outstanding. -/
def singleFlightInv (s : BleState) : Prop :=
  s.inFlight ≤ 1 ∧ (s.writeBusy = false → s.inFlight = 0)

instance (s : BleState) : Decidable (singleFlightInv s) := by
  unfold singleFlightInv
  infer_instance

/-- State of the `App` component.  `attempts` counts `connect()` invocations
that passed the guard and have not yet settled; `alerts` counts
`window.alert` calls; `disconnectNotices` counts invocations of the
`onDisconnect` handler (`handleDisconnected`). -/
structure AppState where
  ble : BleState
  isConnecting : Bool
  isDisconnecting : Bool
  isConnected : Bool
  userDisconnect : Bool
  attempts : Nat
  alerts : Nat
  disconnectNotices : Nat
deriving DecidableEq

/-- Initial `App` state: fresh service, all flags down. -/
def AppState.init : AppState :=
  { ble := BleState.init, isConnecting := false, isDisconnecting := false,
    isConnected := false, userDisconnect := false,
    attempts := 0, alerts := 0, disconnectNotices := 0 }

/-- `handleDisconnected`: stop the loop, mark disconnected, alert only when
the disconnect was not user-initiated, then clear the flag. -/
def handleDisconnected (s : AppState) : AppState :=
  { s with
    ble := stopCommandLoop s.ble, isConnected := false,
    disconnectNotices := s.disconnectNotices + 1,
    alerts := if s.userDisconnect then s.alerts else s.alerts + 1,
    userDisconnect := false }

/-- `disconnectDevice` run to completion: raise the intentional flag, stop
the loop, tear the session down (which detaches the disconnect listener only
for a fully opened session, see `bleDisconnect`), mark disconnected, and
lower both transient flags again. -/
def disconnectDevice (s : AppState) : AppState :=
  { s with
    ble := bleDisconnect (stopCommandLoop s.ble),
    isConnected := false, isDisconnecting := false, userDisconnect := false }

/-- Events of the `App` machine.  `click` is a press of the single
connect/disconnect button; `deviceSelected` is a pending `connect()` passing
device selection and attaching the disconnect listener; `connectOk`,
`connectCancelled` and `connectFailed` settle a pending `connect()`
(`connectCancelled` is a user cancel at device selection, before the
listener attaches; `connectFailed` is a later failure, after which the catch
block alerts and runs `disconnectDevice`); `drop` is delivery of a
`gattserverdisconnected` event from the platform. -/
inductive AppEvent where
  | click
  | deviceSelected
  | connectOk
  | connectCancelled
  | connectFailed
  | drop
deriving DecidableEq

/-- One step of the `App` machine, translated from `App.tsx`.  The button is
disabled while `isConnecting || isDisconnecting`; otherwise a click runs
`disconnectDevice` when connected and begins `connect()` when not.  A
settling event with no `connect` pending is a no-op.  On `connectOk` the
session fields are armed and `startWriteLoop` stops then starts the command
loop.  A `drop` clears the live `connected` property and reaches
`handleDisconnected` only while the listener is attached. -/
def stepApp (s : AppState) : AppEvent → AppState
  | AppEvent.click =>
      if s.isConnecting || s.isDisconnecting then s
      else if s.isConnected then disconnectDevice s
      else
        { s with
          userDisconnect := false, ble := stopCommandLoop s.ble,
          isConnecting := true, attempts := s.attempts + 1 }
  | AppEvent.deviceSelected =>
      if s.isConnecting = false then s
      else { s with ble := stepBle s.ble BleEvent.connectSelected }
  | AppEvent.connectOk =>
      if s.isConnecting = false then s
      else
        { s with
          ble := stepBle (stopCommandLoop (stepBle s.ble BleEvent.connectDone))
            (BleEvent.start 1),
          isConnected := true, isConnecting := false, attempts := s.attempts - 1 }
  | AppEvent.connectCancelled =>
      if s.isConnecting = false then s
      else { s with isConnecting := false, attempts := s.attempts - 1 }
  | AppEvent.connectFailed =>
      if s.isConnecting = false then s
      else
        { disconnectDevice { s with alerts := s.alerts + 1, isConnected := false } with
          isConnecting := false, attempts := s.attempts - 1 }
  | AppEvent.drop =>
      if s.ble.listenerAttached then
        handleDisconnected { s with ble := { s.ble with serverConnected := false } }
      else { s with ble := { s.ble with serverConnected := false } }

/-- Run a list of `App` events from a state. -/
def runApp (s : AppState) (l : List AppEvent) : AppState :=
  l.foldl stepApp s

/-- Number of transport sessions simultaneously opening or open: pending
`connect` attempts plus a live GATT link. -/
def sessions (s : AppState) : Nat :=
  s.attempts + (if s.ble.serverConnected then 1 else 0)

/-- Inductive invariant of the `App` machine used for the mutual-exclusion
claim. -/
def appInv (s : AppState) : Prop :=
  s.attempts = (if s.isConnecting then 1 else 0) ∧
  (s.isConnecting = true → s.ble.serverConnected = false ∧ s.isConnected = false) ∧
  (s.isConnected = false → s.ble.serverConnected = false)

/-! ## Helper lemmas -/

theorem le4_recompose (a : Nat) :
    a % 256 + 256 * (a / 256 % 256) + 65536 * (a / 65536 % 256) +
      16777216 * (a / 16777216 % 256) = a % 4294967296 := by
  omega

theorem getD_append_left (l r : List Nat) (i : Nat) (d : Nat) (h : i < l.length) :
    (l ++ r).getD i d = l.getD i d := by
  simp [List.getD, List.getElem?_append, h]

/-- C2: round-trip — decoding the buffer produced by encoding a command with
finite float32 fields returns exactly those fields as the odometry x, y, yaw. -/
theorem decode_encode_roundtrip (a b c : Nat)
    (ha : a < 4294967296) (hb : b < 4294967296) (hc : c < 4294967296)
    (_hfa : isFinite32 a = true) (_hfb : isFinite32 b = true) (_hfc : isFinite32 c = true) :
    decodeOdometry (encodeCommand ⟨a, b, c⟩) = Except.ok ⟨a, b, c⟩ := by
  simp only [encodeCommand, toLE4, decodeOdometry, getUint32LE, List.cons_append,
    List.nil_append, List.length_cons, List.length_nil, List.getD]
  norm_num [List.getElem?_cons_succ, List.getElem?_cons_zero, Odometry32.mk.injEq]
  omega

theorem decode_encode_roundtrip_witness :
    (1071644672 : Nat) < 4294967296 ∧ isFinite32 1071644672 = true ∧
      decodeOdometry (encodeCommand ⟨1071644672, 3222274048, 0⟩) =
        Except.ok ⟨1071644672, 3222274048, 0⟩ :=
  ⟨by decide, by decide,
    decode_encode_roundtrip 1071644672 3222274048 0 (by decide) (by decide) (by decide)
      (by decide) (by decide) (by decide)⟩

/-- C3: `encodeCommand` always yields exactly 12 bytes holding vx, vy, w as
little-endian float32 words at offsets 0, 4, 8, for every input (NaN and
infinity bit patterns included, since the function is total); and on the
command {vx: 1.5, vy: -2.25, w: 0} it yields exactly the bytes
00 00 C0 3F 00 00 10 C0 00 00 00 00. -/
theorem encodeCommand_layout :
    (∀ c : Command32,
      (encodeCommand c).length = 12 ∧
      getUint32LE (encodeCommand c) 0 = c.vx % 4294967296 ∧
      getUint32LE (encodeCommand c) 4 = c.vy % 4294967296 ∧
      getUint32LE (encodeCommand c) 8 = c.w % 4294967296) ∧
    encodeCommand ⟨0x3FC00000, 0xC0100000, 0⟩ =
      [0x00, 0x00, 0xC0, 0x3F, 0x00, 0x00, 0x10, 0xC0, 0x00, 0x00, 0x00, 0x00] ∧
    f32Value 0x3FC00000 = some (3 / 2) ∧
    f32Value 0xC0100000 = some (-(9 / 4)) ∧
    f32Value 0 = some 0 := by
  refine ⟨fun c => ?_, by decide, by norm_num [f32Value], by norm_num [f32Value],
    by norm_num [f32Value]⟩
  simp only [encodeCommand, toLE4, getUint32LE, List.cons_append, List.nil_append,
    List.length_cons, List.length_nil, List.getD]
  norm_num [List.getElem?_cons_succ, List.getElem?_cons_zero]
  omega

/-- C4: `decodeOdometry` fails with the too-short `MalformedPayload` error
exactly when the buffer holds 0..11 bytes; on 12 or more bytes it succeeds,
returning the little-endian float32 words at offsets 0, 4, 8, and trailing
bytes beyond the first 12 do not change the result. -/
theorem decodeOdometry_length_spec (buf : List Nat) :
    (decodeOk buf = true ↔ 12 ≤ buf.length) ∧
    (buf.length < 12 → decodeOdometry buf = Except.error malformedMsg) ∧
    (12 ≤ buf.length →
      decodeOdometry buf =
        Except.ok ⟨getUint32LE buf 0, getUint32LE buf 4, getUint32LE buf 8⟩) ∧
    (∀ rest : List Nat, 12 ≤ buf.length →
      decodeOdometry (buf ++ rest) = decodeOdometry buf) := by
  refine ⟨?_, ?_, ?_, ?_⟩
  · rcases Nat.lt_or_ge buf.length 12 with hl | hl
    · simp only [decodeOk, decodeOdometry, if_pos hl]
      constructor
      · intro h
        cases h
      · intro h
        omega
    · simp only [decodeOk, decodeOdometry, if_neg (Nat.not_lt.mpr hl)]
      simp [hl]
  · intro h
    simp [decodeOdometry, h]
  · intro h
    simp [decodeOdometry, Nat.not_lt.mpr h]
  · intro rest h
    have hlen : ¬buf.length < 12 := Nat.not_lt.mpr h
    have hlen2 : ¬(buf ++ rest).length < 12 := by
      simp only [List.length_append]
      omega
    have g0 := getD_append_left buf rest 0 0 (by omega)
    have g1 := getD_append_left buf rest 1 0 (by omega)
    have g2 := getD_append_left buf rest 2 0 (by omega)
    have g3 := getD_append_left buf rest 3 0 (by omega)
    have g4 := getD_append_left buf rest 4 0 (by omega)
    have g5 := getD_append_left buf rest 5 0 (by omega)
    have g6 := getD_append_left buf rest 6 0 (by omega)
    have g7 := getD_append_left buf rest 7 0 (by omega)
    have g8 := getD_append_left buf rest 8 0 (by omega)
    have g9 := getD_append_left buf rest 9 0 (by omega)
    have g10 := getD_append_left buf rest 10 0 (by omega)
    have g11 := getD_append_left buf rest 11 0 (by omega)
    simp only [decodeOdometry, if_neg hlen, if_neg hlen2, getUint32LE,
      g0, g1, g2, g3, g4, g5, g6, g7, g8, g9, g10, g11]

theorem decodeOdometry_length_spec_witness :
    decodeOdometry (List.replicate 11 0) = Except.error malformedMsg ∧
      decodeOdometry (List.replicate 12 0 ++ [7, 9]) =
        decodeOdometry (List.replicate 12 0) :=
  ⟨(decodeOdometry_length_spec (List.replicate 11 0)).2.1 (by decide),
    (decodeOdometry_length_spec (List.replicate 12 0)).2.2.2 [7, 9] (by decide)⟩

theorem runBle_cons (s : BleState) (e : BleEvent) (l : List BleEvent) :
    runBle s (e :: l) = runBle (stepBle s e) l := rfl

theorem tick_of_busy (s : BleState) (cmd : Command32) (h : s.writeBusy = true) :
    stepBle s (BleEvent.tick cmd) = s := by
  simp only [stepBle, h]
  split <;> simp

theorem stepBle_preserves_singleFlight (s : BleState) (e : BleEvent)
    (he : loopLocal e = true) (h : singleFlightInv s) :
    singleFlightInv (stepBle s e) := by
  obtain ⟨h1, h2⟩ := h
  cases e with
  | start id => simp [loopLocal] at he
  | stop => simp [loopLocal] at he
  | tick cmd =>
      simp only [stepBle]
      split_ifs with hid hbusy hnan hchar <;>
        first
          | exact ⟨h1, h2⟩
          | (have hz : s.inFlight = 0 := h2 (by simpa using hbusy)
             refine ⟨?_, ?_⟩ <;> simp [stopCommandLoop] <;> omega)
  | sendOk =>
      simp only [stepBle]
      split_ifs with hz
      · exact ⟨h1, h2⟩
      · refine ⟨?_, ?_⟩ <;> simp <;> omega
  | sendErr msg =>
      simp only [stepBle]
      split_ifs with hz
      · exact ⟨h1, h2⟩
      · refine ⟨?_, ?_⟩ <;> simp [stopCommandLoop] <;> omega
  | connectSelected => exact ⟨h1, h2⟩
  | connectDone => exact ⟨h1, h2⟩
  | disconnect => exact ⟨h1, h2⟩

theorem runBle_singleFlight (l : List BleEvent) (s : BleState)
    (h : singleFlightInv s) (hl : ∀ e ∈ l, loopLocal e = true) :
    singleFlightInv (runBle s l) := by
  induction l generalizing s with
  | nil => exact h
  | cons e t ih =>
      rw [runBle_cons]
      exact ih _ (stepBle_preserves_singleFlight s e (hl e (List.mem_cons_self e t)) h)
        (fun x hx => hl x (List.mem_cons_of_mem e hx))

/-- C1: single-flight — along any execution of one command loop (a trace with
no interleaved `startCommandLoop`/`stopCommandLoop`, starting with no write
outstanding), at most one characteristic write is ever in flight, and an
interval firing while the busy flag is set leaves the state completely
unchanged: nothing is fetched, validated, encoded or sent. -/
theorem commandLoop_single_flight (s : BleState) (l : List BleEvent)
    (h0 : s.inFlight = 0) (_hb : s.writeBusy = false)
    (hl : ∀ e ∈ l, loopLocal e = true) :
    (runBle s l).inFlight ≤ 1 ∧
    (∀ cmd : Command32, (runBle s l).writeBusy = true →
      stepBle (runBle s l) (BleEvent.tick cmd) = runBle s l) := by
  have hinv : singleFlightInv (runBle s l) :=
    runBle_singleFlight l s ⟨by omega, fun _ => h0⟩ hl
  exact ⟨hinv.1, fun cmd hbusy => tick_of_busy _ cmd hbusy⟩

theorem commandLoop_single_flight_witness :
    (runBle (runBle BleState.init [BleEvent.connectDone, BleEvent.start 1])
        [BleEvent.tick ⟨0, 0, 0⟩]).writeBusy = true ∧
    (runBle (runBle BleState.init [BleEvent.connectDone, BleEvent.start 1])
        [BleEvent.tick ⟨0, 0, 0⟩]).inFlight ≤ 1 ∧
    stepBle (runBle (runBle BleState.init [BleEvent.connectDone, BleEvent.start 1])
        [BleEvent.tick ⟨0, 0, 0⟩]) (BleEvent.tick ⟨0, 0, 0⟩) =
      runBle (runBle BleState.init [BleEvent.connectDone, BleEvent.start 1])
        [BleEvent.tick ⟨0, 0, 0⟩] := by
  have h := commandLoop_single_flight
    (runBle BleState.init [BleEvent.connectDone, BleEvent.start 1])
    [BleEvent.tick ⟨0, 0, 0⟩] (by decide) (by decide) (by decide)
  exact ⟨by decide, h.1, h.2 ⟨0, 0, 0⟩ (by decide)⟩

/-- C5: a tick that fetches a command with a NaN field reports the
`InvalidCommand` message to the error handler and stops the loop, and
performs no encode and no send for that command (nor any other state
change beyond the fetch, the report, and the loop teardown). -/
theorem nan_command_stops_loop (s : BleState) (cmd : Command32) (id : Nat)
    (hid : s.writeLoopId = some id) (hb : s.writeBusy = false)
    (hn : hasNaNField cmd = true) :
    stepBle s (BleEvent.tick cmd) =
      stopCommandLoop { s with
        fetches := s.fetches + 1,
        reported := s.reported ++ [invalidCommandMsg] } ∧
    (stepBle s (BleEvent.tick cmd)).encodes = s.encodes ∧
    (stepBle s (BleEvent.tick cmd)).sends = s.sends ∧
    (stepBle s (BleEvent.tick cmd)).inFlight = s.inFlight ∧
    (stepBle s (BleEvent.tick cmd)).writeLoopId = none ∧
    (stepBle s (BleEvent.tick cmd)).reported = s.reported ++ [invalidCommandMsg] := by
  have hstep : stepBle s (BleEvent.tick cmd) =
      stopCommandLoop { s with
        fetches := s.fetches + 1,
        reported := s.reported ++ [invalidCommandMsg] } := by
    simp only [stepBle, hid, hb, hn]
    simp
  refine ⟨hstep, ?_, ?_, ?_, ?_, ?_⟩ <;> rw [hstep] <;> simp [stopCommandLoop]

theorem nan_command_stops_loop_witness :
    stepBle { BleState.init with writeLoopId := some 7 }
        (BleEvent.tick ⟨0x7FC00000, 0, 0⟩) =
      stopCommandLoop { { BleState.init with writeLoopId := some 7 } with
        fetches := 1, reported := [invalidCommandMsg] } :=
  (nan_command_stops_loop { BleState.init with writeLoopId := some 7 }
    ⟨0x7FC00000, 0, 0⟩ 7 rfl rfl (by decide)).1

theorem stepBle_terminated (s : BleState) (e : BleEvent)
    (hid : s.writeLoopId = none) (hz : s.inFlight = 0) (hns : noStart e = true) :
    (stepBle s e).writeLoopId = none ∧ (stepBle s e).inFlight = 0 ∧
      (stepBle s e).sends = s.sends := by
  cases e with
  | start id => simp [noStart] at hns
  | tick cmd => simp [stepBle, hid, hz]
  | sendOk => simp [stepBle, hz, hid]
  | sendErr msg => simp [stepBle, hz, hid]
  | stop => simp [stepBle, stopCommandLoop, hid, hz]
  | connectSelected => simp [stepBle, hid, hz]
  | connectDone => simp [stepBle, hid, hz]
  | disconnect => simp [stepBle, bleDisconnect, hid, hz]

theorem runBle_terminated (l : List BleEvent) (s : BleState)
    (hid : s.writeLoopId = none) (hz : s.inFlight = 0)
    (hl : ∀ e ∈ l, noStart e = true) :
    (runBle s l).writeLoopId = none ∧ (runBle s l).inFlight = 0 ∧
      (runBle s l).sends = s.sends := by
  induction l generalizing s with
  | nil => exact ⟨hid, hz, rfl⟩
  | cons e t ih =>
      rw [runBle_cons]
      obtain ⟨a, b, c⟩ := stepBle_terminated s e hid hz (hl e (List.mem_cons_self e t))
      obtain ⟨a2, b2, c2⟩ := ih (stepBle s e) a b (fun x hx => hl x (List.mem_cons_of_mem e hx))
      exact ⟨a2, b2, by rw [c2, c]⟩

/-- C6: a send failure inside a tick is reported to the error handler exactly
once and terminates the loop (timer id cleared, busy flag cleared) while
leaving every session field — the transport link — untouched; and from any
terminated-loop state, no trace that lacks a fresh `startCommandLoop` ever
issues another send. -/
theorem loop_failure_fatal_to_loop_only (s : BleState) (m : String)
    (l : List BleEvent) (h1 : s.inFlight = 1) (hl : ∀ e ∈ l, noStart e = true) :
    stepBle s (BleEvent.sendErr m) =
      stopCommandLoop { s with inFlight := 0, reported := s.reported ++ [m] } ∧
    (stepBle s (BleEvent.sendErr m)).reported = s.reported ++ [m] ∧
    (stepBle s (BleEvent.sendErr m)).writeLoopId = none ∧
    (stepBle s (BleEvent.sendErr m)).writeBusy = false ∧
    (stepBle s (BleEvent.sendErr m)).writeChar = s.writeChar ∧
    (stepBle s (BleEvent.sendErr m)).serverConnected = s.serverConnected ∧
    (stepBle s (BleEvent.sendErr m)).device = s.device ∧
    (∀ t : BleState, t.writeLoopId = none → t.inFlight = 0 →
      (runBle t l).sends = t.sends ∧ (runBle t l).writeLoopId = none) := by
  have hstep : stepBle s (BleEvent.sendErr m) =
      stopCommandLoop { s with inFlight := 0, reported := s.reported ++ [m] } := by
    simp only [stepBle, h1]
    simp
  refine ⟨hstep, ?_, ?_, ?_, ?_, ?_, ?_, fun t ha hb => ?_⟩
  · rw [hstep]; simp [stopCommandLoop]
  · rw [hstep]; simp [stopCommandLoop]
  · rw [hstep]; simp [stopCommandLoop]
  · rw [hstep]; simp [stopCommandLoop]
  · rw [hstep]; simp [stopCommandLoop]
  · rw [hstep]; simp [stopCommandLoop]
  · obtain ⟨x, y, z⟩ := runBle_terminated l t ha hb hl
    exact ⟨z, x⟩

theorem loop_failure_fatal_to_loop_only_witness :
    stepBle { BleState.init with
        writeChar := true, serverConnected := true, writeLoopId := some 3,
        writeBusy := true, inFlight := 1 } (BleEvent.sendErr malformedMsg) =
      stopCommandLoop { { BleState.init with
        writeChar := true, serverConnected := true, writeLoopId := some 3,
        writeBusy := true, inFlight := 1 } with
        inFlight := 0, reported := [malformedMsg] } ∧
    (runBle { BleState.init with writeChar := true }
        [BleEvent.tick ⟨0, 0, 0⟩, BleEvent.sendOk, BleEvent.connectDone]).sends =
      ({ BleState.init with writeChar := true } : BleState).sends := by
  have h := loop_failure_fatal_to_loop_only
    { BleState.init with
      writeChar := true, serverConnected := true, writeLoopId := some 3,
      writeBusy := true, inFlight := 1 } malformedMsg
    [BleEvent.tick ⟨0, 0, 0⟩, BleEvent.sendOk, BleEvent.connectDone] rfl (by decide)
  exact ⟨h.1, (h.2.2.2.2.2.2.2 { BleState.init with writeChar := true } rfl rfl).1⟩

/-- C8: `stopCommandLoop` on a never-started loop and `disconnect` on a
never-opened session leave the fresh state unchanged (and cannot fail, the
step being total); both are idempotent from any state; and `stopCommandLoop`
clears the busy flag and the timer id synchronously, after which an interval
firing changes nothing. -/
theorem stop_and_disconnect_idempotent :
    stepBle BleState.init BleEvent.stop = BleState.init ∧
    stepBle BleState.init BleEvent.disconnect = BleState.init ∧
    (∀ s : BleState, stepBle (stepBle s BleEvent.stop) BleEvent.stop =
      stepBle s BleEvent.stop) ∧
    (∀ s : BleState, stepBle (stepBle s BleEvent.disconnect) BleEvent.disconnect =
      stepBle s BleEvent.disconnect) ∧
    (∀ s : BleState, (stepBle s BleEvent.stop).writeBusy = false ∧
      (stepBle s BleEvent.stop).writeLoopId = none) ∧
    (∀ (s : BleState) (cmd : Command32),
      stepBle (stepBle s BleEvent.stop) (BleEvent.tick cmd) = stepBle s BleEvent.stop) := by
  refine ⟨by decide, by decide, fun s => ?_, fun s => ?_, fun s => ⟨rfl, rfl⟩,
    fun s cmd => ?_⟩
  · simp [stepBle, stopCommandLoop]
  · simp [stepBle, bleDisconnect]
  · simp [stepBle, stopCommandLoop]

/-- C10: `startCommandLoop` while a loop is already running is a complete
no-op — the stored timer id, and with it the closure holding the accessor and
error handler, is not replaced — and it installs a timer exactly when the
stored id is clear. -/
theorem start_noop_when_running (s : BleState) (id id2 : Nat) :
    (s.writeLoopId = some id → stepBle s (BleEvent.start id2) = s) ∧
    (s.writeLoopId = none →
      stepBle s (BleEvent.start id2) = { s with writeLoopId := some id2 }) := by
  constructor
  · intro h
    simp [stepBle, h]
  · intro h
    simp [stepBle, h]

theorem start_noop_when_running_witness :
    stepBle { BleState.init with writeLoopId := some 4 } (BleEvent.start 9) =
      { BleState.init with writeLoopId := some 4 } ∧
    stepBle BleState.init (BleEvent.start 9) =
      { BleState.init with writeLoopId := some 9 } :=
  ⟨(start_noop_when_running { BleState.init with writeLoopId := some 4 } 4 9).1 rfl,
    (start_noop_when_running BleState.init 4 9).2 rfl⟩

theorem runApp_cons (s : AppState) (e : AppEvent) (l : List AppEvent) :
    runApp s (e :: l) = runApp (stepApp s e) l := rfl

theorem stepApp_listener_off (s : AppState) (e : AppEvent)
    (hoff : s.ble.listenerAttached = false)
    (hok : e ≠ AppEvent.connectOk) (hsel : e ≠ AppEvent.deviceSelected) :
    (stepApp s e).ble.listenerAttached = false ∧
      (stepApp s e).disconnectNotices = s.disconnectNotices := by
  cases e with
  | click =>
      simp only [stepApp]
      split_ifs <;>
        simp [disconnectDevice, bleDisconnect, stopCommandLoop, hoff]
  | deviceSelected => exact absurd rfl hsel
  | connectOk => exact absurd rfl hok
  | connectCancelled =>
      simp only [stepApp]
      split_ifs <;> simp [hoff]
  | connectFailed =>
      simp only [stepApp]
      split_ifs <;> simp [disconnectDevice, bleDisconnect, stopCommandLoop, hoff]
  | drop =>
      simp only [stepApp]
      rw [if_neg (by simp [hoff])]
      simp [hoff]

theorem runApp_listener_off (l : List AppEvent) (s : AppState)
    (hoff : s.ble.listenerAttached = false)
    (hl : ∀ e ∈ l, e ≠ AppEvent.connectOk ∧ e ≠ AppEvent.deviceSelected) :
    (runApp s l).ble.listenerAttached = false ∧
      (runApp s l).disconnectNotices = s.disconnectNotices := by
  induction l generalizing s with
  | nil => exact ⟨hoff, rfl⟩
  | cons e t ih =>
      rw [runApp_cons]
      obtain ⟨he1, he2⟩ := hl e (List.mem_cons_self e t)
      obtain ⟨a, b⟩ := stepApp_listener_off s e hoff he1 he2
      obtain ⟨a2, b2⟩ := ih (stepApp s e) a (fun x hx => hl x (List.mem_cons_of_mem e hx))
      exact ⟨a2, by rw [b2, b]⟩

/-- C7 counterexample: the claim is false for a session that only partially
opened.  From the initial state, a connect attempt that passes device
selection (listener attached, `#device` still unset) and then fails runs
`disconnectDevice` — a caller-initiated teardown — yet the listener survives
it, so a single later channel drop fires `handleDisconnected` (one more
`onDisconnect` notification) and, `userDisconnectRef` having been reset,
also alerts. -/
theorem no_notice_after_user_disconnect_cex :
    (runApp AppState.init [AppEvent.click, AppEvent.deviceSelected,
        AppEvent.connectFailed]).ble.listenerAttached = true ∧
    (runApp AppState.init [AppEvent.click, AppEvent.deviceSelected,
        AppEvent.connectFailed]).disconnectNotices = 0 ∧
    (runApp AppState.init [AppEvent.click, AppEvent.deviceSelected,
        AppEvent.connectFailed, AppEvent.drop]).disconnectNotices = 1 ∧
    (runApp AppState.init [AppEvent.click, AppEvent.deviceSelected,
        AppEvent.connectFailed, AppEvent.drop]).alerts =
      (runApp AppState.init [AppEvent.click, AppEvent.deviceSelected,
        AppEvent.connectFailed]).alerts + 1 := by
  decide

/-- C7 (amended): after `disconnectDevice` — the caller-initiated teardown —
has run on a session that *fully opened* (`#device` and `#disconnectHandler`
both set, so `disconnect` removes the `gattserverdisconnected` listener), the
`onDisconnect` handler (`handleDisconnected`) never fires again along any
trace that contains no fresh connect attempt reaching device selection or
completion, even if the channel later reports drops.  For a partially opened
session (`#device` unset) the listener survives the teardown and a later
drop does fire it — see the counterexample. -/
theorem no_notice_after_user_disconnect (s : AppState) (l : List AppEvent)
    (hdev : s.ble.device = true) (hh : s.ble.disconnectHandler = true)
    (hl : ∀ e ∈ l, e ≠ AppEvent.connectOk ∧ e ≠ AppEvent.deviceSelected) :
    (disconnectDevice s).ble.listenerAttached = false ∧
    (runApp (disconnectDevice s) l).disconnectNotices =
      (disconnectDevice s).disconnectNotices := by
  have hoff : (disconnectDevice s).ble.listenerAttached = false := by
    simp [disconnectDevice, bleDisconnect, stopCommandLoop, hdev, hh]
  exact ⟨hoff, (runApp_listener_off l (disconnectDevice s) hoff hl).2⟩

theorem no_notice_after_user_disconnect_witness :
    (disconnectDevice { AppState.init with
        ble := stepBle BleState.init BleEvent.connectDone,
        isConnected := true }).ble.listenerAttached = false ∧
    (runApp (disconnectDevice { AppState.init with
        ble := stepBle BleState.init BleEvent.connectDone,
        isConnected := true }) [AppEvent.drop, AppEvent.drop]).disconnectNotices =
      (disconnectDevice { AppState.init with
        ble := stepBle BleState.init BleEvent.connectDone,
        isConnected := true }).disconnectNotices :=
  no_notice_after_user_disconnect
    { AppState.init with
      ble := stepBle BleState.init BleEvent.connectDone, isConnected := true }
    [AppEvent.drop, AppEvent.drop] rfl rfl (by decide)

theorem stepApp_preserves_appInv (s : AppState) (e : AppEvent)
    (h : appInv s) : appInv (stepApp s e) := by
  obtain ⟨h1, h2, h3⟩ := h
  cases e with
  | click =>
      simp only [stepApp]
      split_ifs with hbusy hconn
      · exact ⟨h1, h2, h3⟩
      · refine ⟨?_, ?_, ?_⟩ <;>
          simp_all [disconnectDevice, bleDisconnect, stopCommandLoop, appInv]
      · have hnc : s.isConnecting = false := by
          revert hbusy
          cases s.isConnecting <;> simp
        refine ⟨?_, ?_, ?_⟩ <;>
          simp_all [stopCommandLoop]
  | deviceSelected =>
      simp only [stepApp]
      split_ifs with hnc
      · exact ⟨h1, h2, h3⟩
      · have hc : s.isConnecting = true := by
          revert hnc
          cases s.isConnecting <;> simp
        refine ⟨?_, ?_, ?_⟩ <;> simp_all [stepBle]
  | connectOk =>
      simp only [stepApp]
      split_ifs with hnc
      · exact ⟨h1, h2, h3⟩
      · have hc : s.isConnecting = true := by
          revert hnc
          cases s.isConnecting <;> simp
        refine ⟨?_, ?_, ?_⟩ <;> simp_all
  | connectCancelled =>
      simp only [stepApp]
      split_ifs with hnc
      · exact ⟨h1, h2, h3⟩
      · have hc : s.isConnecting = true := by
          revert hnc
          cases s.isConnecting <;> simp
        refine ⟨?_, ?_, ?_⟩ <;> simp_all
  | connectFailed =>
      simp only [stepApp]
      split_ifs with hnc
      · exact ⟨h1, h2, h3⟩
      · have hc : s.isConnecting = true := by
          revert hnc
          cases s.isConnecting <;> simp
        refine ⟨?_, ?_, ?_⟩ <;>
          simp_all [disconnectDevice, bleDisconnect, stopCommandLoop]
  | drop =>
      simp only [stepApp]
      split_ifs with hh
      · refine ⟨?_, ?_, ?_⟩ <;>
          simp_all [handleDisconnected, stopCommandLoop]
      · refine ⟨?_, ?_, ?_⟩ <;> simp_all

theorem runApp_preserves_appInv (l : List AppEvent) (s : AppState)
    (h : appInv s) : appInv (runApp s l) := by
  induction l generalizing s with
  | nil => exact h
  | cons e t ih => exact ih (stepApp s e) (stepApp_preserves_appInv s e h)

/-- C9: connect mutual exclusion — from the initial `App` state, every
reachable state has at most one transport session opening or open
(`sessions ≤ 1`), and a button press while a connect is already in flight is
ignored outright, so a second overlapping `connect` never starts a session. -/
theorem connect_mutual_exclusion :
    (∀ l : List AppEvent, sessions (runApp AppState.init l) ≤ 1) ∧
    (∀ s : AppState, s.isConnecting = true → stepApp s AppEvent.click = s) := by
  constructor
  · intro l
    have hinv : appInv (runApp AppState.init l) :=
      runApp_preserves_appInv l AppState.init (by refine ⟨rfl, ?_, ?_⟩ <;> simp [AppState.init, BleState.init])
    obtain ⟨h1, h2, _⟩ := hinv
    unfold sessions
    by_cases hc : (runApp AppState.init l).isConnecting = true
    · have := (h2 hc).1
      simp_all
    · have hf : (runApp AppState.init l).isConnecting = false := by
        revert hc
        cases (runApp AppState.init l).isConnecting <;> simp
      rw [hf] at h1
      simp at h1
      rw [h1]
      split_ifs <;> omega
  · intro s h
    simp [stepApp, h]

theorem connect_mutual_exclusion_witness :
    stepApp { AppState.init with isConnecting := true } AppEvent.click =
      { AppState.init with isConnecting := true } :=
  connect_mutual_exclusion.2 { AppState.init with isConnecting := true } rfl
